import Mathlib

/-!
Shallow embedding of the YUI3 drag-and-drop bundle
(`src/build/dd/dd-dragdrop-all-min.js`): the DragDropManager's hit-testing
(`getBestMatch`, `isOverTarget`), the Drag state machine (`_handleMouseDown`,
`_setStartPosition`, `_move`, `_moveNode`, `_align`, `start`, `end`,
`_timeoutCheck`), the constraint extension (`getRegion`, `_checkRegion`,
`_align`, `_checkTicks`, `_calcTicks`, `_calcTickArray`, the `constrain2node`
and `constrain2region` attribute setters) and the Drop activation logic
(`inGroup`, `_activateShim`).

Pixel coordinates are modelled as `Int` (the code does integer pixel math);
the one floating-point computation, `(N-M)/J` inside `_calcTicks`, is
modelled exactly over `ℚ`.  JavaScript truthiness of optional numeric values
(`if(L&&K)`) is modelled by `Option Int` plus "present and nonzero".
-/

/-- An axis-aligned rectangle in page coordinates, as the code's region
objects `{top, right, bottom, left}`. -/
structure Region where
  top : Int
  right : Int
  bottom : Int
  left : Int
deriving Repr, DecidableEq

/-- Modelled from the spec: the node module's `intersect` helper (its source
is not part of this repository) "computes the intersection area between
the active drag's node rectangle and the candidate's rectangle".  It returns
the offsets `t = max tops`, `b = min bottoms`, `l = max lefts`,
`r = min rights`, the (possibly degenerate) product area `(b-t)*(r-l)` and
the inclusive overlap flag `inRegion`. -/
structure IntersectInfo where
  area : Int
  inRegion : Bool
deriving Repr, DecidableEq

/-- Modelled from the spec: intersection info of two regions (see
`IntersectInfo`). -/
def intersectInfo (r1 r2 : Region) : IntersectInfo :=
  let t := max r1.top r2.top
  let b := min r1.bottom r2.bottom
  let l := max r1.left r2.left
  let r := min r1.right r2.right
  { area := (b - t) * (r - l)
    inRegion := decide (t ≤ b) && decide (l ≤ r) }

/-- The true geometric intersection area of two rectangles (zero when they
do not overlap).  This is the specification-side notion the claims about
`getBestMatch` quantify over. -/
def interArea (r1 r2 : Region) : Int :=
  max 0 (min r1.bottom r2.bottom - max r1.top r2.top) *
    max 0 (min r1.right r2.right - max r1.left r2.left)

/-- Modelled from the spec: the node module's `inRegion` with `all = true`
tests that `inner` is entirely inside `outer` (full containment, inclusive
bounds). -/
def inRegionAll (inner outer : Region) : Bool :=
  decide (outer.left ≤ inner.left) && decide (inner.right ≤ outer.right) &&
    decide (outer.top ≤ inner.top) && decide (inner.bottom ≤ outer.bottom)

/-- A candidate Drop as seen by `getBestMatch`: an identity (JavaScript
object identity) and the current region of its node. -/
structure DropC where
  id : Nat
  nodeRegion : Region
deriving Repr, DecidableEq

/-- The accumulation loop of `DDM.getBestMatch`: `C` (current winner) starts
`null`, `E` (best area) starts `0`; a candidate whose intersection with the
active drag's drag-node region is `inRegion` with `area > E` becomes the new
winner. -/
def gbmGo (dragR : Region) : List DropC → Option DropC → Int → Option DropC
  | [], best, _ => best
  | c :: rest, best, e =>
    let G := intersectInfo dragR c.nodeRegion
    if G.inRegion ∧ G.area > e then gbmGo dragR rest (some c) G.area
    else gbmGo dragR rest best e

/-- `DDM.getBestMatch(candidates)` without the losers list: the fold over
the candidates starting from no winner and best area `0`. -/
def getBestMatch (dragR : Region) (cands : List DropC) : Option DropC :=
  gbmGo dragR cands none 0

/-- `DDM.getBestMatch(candidates, true)`: the winner plus the losers list,
built by filtering out (`H !== C`) the winner from the candidates. -/
def getBestMatchAll (dragR : Region) (cands : List DropC) :
    Option DropC × List DropC :=
  let C := getBestMatch dragR cands
  (C, cands.filter (fun c => decide (some c ≠ C)))

/-- The DDM drag-mode constant `POINT`. -/
def POINT : Nat := 0

/-- The DDM drag-mode constant `INTERSECT`. -/
def INTERSECT : Nat := 1

/-- The DDM drag-mode constant `STRICT`. -/
def STRICT : Nat := 2

/-- The fields of the active drag consulted by `DDM.isOverTarget`:
`mouseXY` (last pointer page position, absent before any move), the numeric
`dragMode`, and `region` (the drag node's tracked region). -/
structure DragHit where
  mouseXY : Option (Int × Int)
  dragMode : Nat
  region : Region
deriving Repr, DecidableEq

/-- The fields of a Drop consulted by `DDM.isOverTarget`: its computed
`region`. -/
structure DropHit where
  region : Region
deriving Repr, DecidableEq

/-- `DDM.isOverTarget(drop)`: false when there is no active drag, no drop,
or no recorded pointer position; in STRICT mode the drag's region must be
entirely inside the drop's region; otherwise the pointer point-rectangle
must intersect the drop's region. -/
def isOverTarget (activeDrag : Option DragHit) (drop : Option DropHit) :
    Bool :=
  match activeDrag, drop with
  | some D, some B =>
    match D.mouseXY with
    | some c =>
      if D.dragMode = STRICT then inRegionAll D.region B.region
      else
        (intersectInfo B.region
          { top := c.2, bottom := c.2, left := c.1, right := c.1 }).inRegion
    | none => false
  | _, _ => false

/-- The state of one Drag (`DD.Drag` composed with the DDM's click-vs-drag
bookkeeping): pointer-down position `startXY`, node position at pointer-down
`nodeXY`, last moved-to position `lastXY`, pointer-to-node offset `deltaXY`,
last pointer position `mouseXY`, the `offsetNode`/`lock`/`dragging` flags,
the `_dragThreshMet` flag, the `clickPixelThresh` attribute, and counters of
`drag:start` / `drag:end` firings. -/
structure DragSt where
  startXY : Int × Int
  nodeXY : Int × Int
  lastXY : Int × Int
  deltaXY : Int × Int
  mouseXY : Option (Int × Int)
  offsetNode : Bool
  lock : Bool
  dragging : Bool
  dragThreshMet : Bool
  clickPixelThresh : Int
  startFires : Nat
  endFires : Nat
deriving Repr, DecidableEq

/-- `Drag._setStartPosition(pos)`: records `startXY`, reads the node's
current position into `nodeXY`, sets `lastXY` to it, and captures the
pointer-to-node offset `deltaXY` (zero when `offsetNode` is off). -/
def setStartPosition (s : DragSt) (nodePos S : Int × Int) : DragSt :=
  { s with
    startXY := S
    nodeXY := nodePos
    lastXY := nodePos
    deltaXY :=
      if s.offsetNode then (S.1 - nodePos.1, S.2 - nodePos.2) else (0, 0) }

/-- `Drag._handleMouseDown` after a valid click: clears `_dragThreshMet` and
records the start position (the armed click timer is modelled by the
`DEv.timeout` event below). -/
def handleMouseDown (s : DragSt) (nodePos S : Int × Int) : DragSt :=
  setStartPosition { s with dragThreshMet := false } nodePos S

/-- `Drag._align(xy)`: the proposed pointer position minus the captured
pointer-to-node offset `deltaXY`. -/
def align (s : DragSt) (S : Int × Int) : Int × Int :=
  (S.1 - s.deltaXY.1, S.2 - s.deltaXY.2)

/-- `Drag._moveNode(xy)`: aligns the pointer position and records the
resulting node position in `lastXY` (the DOM write and the fired `drag:drag`
event payload are derived from the same value). -/
def moveNode (s : DragSt) (S : Int × Int) : DragSt :=
  { s with lastXY := align s S }

/-- `Drag.start()`: unless locked or already dragging, sets `dragging` and
fires `drag:start` (counted in `startFires`). -/
def start (s : DragSt) : DragSt :=
  if !s.lock && !s.dragging then
    { s with dragging := true, startFires := s.startFires + 1 }
  else s

/-- `Drag.end()`: clears the click timer and `_dragThreshMet`; fires
`drag:end` only when unlocked and dragging; always clears `dragging` and
resets `deltaXY`. -/
def endDrag (s : DragSt) : DragSt :=
  let s1 := { s with dragThreshMet := false }
  let s2 :=
    if !s.lock && s.dragging then { s1 with endFires := s1.endFires + 1 }
    else s1
  { s2 with dragging := false, deltaXY := (0, 0) }

/-- `Drag._move(ev)`: ignored when locked; records `mouseXY`; before the
threshold is met, promotes to dragging (sets `_dragThreshMet`, calls
`start()`, then `_moveNode`) only when the pointer moved more than
`clickPixelThresh` from `startXY` on either axis; after the threshold is
met, just moves the node. -/
def moveEv (s : DragSt) (p : Int × Int) : DragSt :=
  if s.lock then s
  else
    let s1 := { s with mouseXY := some p }
    if !s1.dragThreshMet then
      if s1.clickPixelThresh < |s1.startXY.1 - p.1| ∨
          s1.clickPixelThresh < |s1.startXY.2 - p.2| then
        moveNode (start { s1 with dragThreshMet := true }) p
      else s1
    else moveNode s1 p

/-- `Drag._timeoutCheck()`: when the armed click timer fires (the elapsed
time reached `clickTimeThresh`) and the drag is not locked, promotes to
dragging and moves the node to the original pointer-down position. -/
def timeoutCheck (s : DragSt) : DragSt :=
  if !s.lock then
    moveNode (start { s with dragThreshMet := true }) s.startXY
  else s

/-- An event delivered to a pending Drag: a pointer move, or the firing of
the armed click timer (which the environment delivers only once the elapsed
time reaches `clickTimeThresh`). -/
inductive DEv where
  | move (p : Int × Int)
  | timeout
deriving Repr, DecidableEq

/-- Dispatch of one event to the Drag. -/
def dstep (s : DragSt) : DEv → DragSt
  | DEv.move p => moveEv s p
  | DEv.timeout => timeoutCheck s

/-- Running a Drag through a sequence of events. -/
def drun (s : DragSt) (evs : List DEv) : DragSt := evs.foldl dstep s

/-- An event that stays under both promotion thresholds of state `s`: a
pointer move within `clickPixelThresh` of `startXY` on each axis (a timer
firing would mean the time threshold was reached, so it never qualifies). -/
def evSmallB (s : DragSt) : DEv → Bool
  | DEv.move p =>
    decide (|s.startXY.1 - p.1| ≤ s.clickPixelThresh) &&
      decide (|s.startXY.2 - p.2| ≤ s.clickPixelThresh)
  | DEv.timeout => false

/-- An event that exceeds one of the promotion thresholds of state `s`: a
pointer move beyond `clickPixelThresh` on some axis, or the click timer
firing (the time threshold). -/
def evExceedsB (s : DragSt) : DEv → Bool
  | DEv.move p =>
    decide (s.clickPixelThresh < |s.startXY.1 - p.1|) ||
      decide (s.clickPixelThresh < |s.startXY.2 - p.2|)
  | DEv.timeout => true

/-- The state of a constrained Drag (`dd-constrain` attributes plus the base
Drag fields its methods read): `startXY`/`deltaXY` from the base Drag, the
drag node's `offsetWidth`/`offsetHeight`, the `stickX`/`stickY` flags, the
tick attributes (`0` models the unset/falsy value of `tickX`/`tickY`;
`none` models an unset tick array), the three region sources and the
`gutter` sizes.  `constrain2node` holds the configured node's current
bounding region, `viewport` the node's `viewportRegion`. -/
structure CDrag where
  startXY : Int × Int
  deltaXY : Int × Int
  nodeW : Int
  nodeH : Int
  stickX : Bool
  stickY : Bool
  tickX : Int
  tickY : Int
  tickXArray : Option (List Int)
  tickYArray : Option (List Int)
  constrain2node : Option Region
  constrain2region : Option Region
  constrain2view : Bool
  viewport : Region
  gutter : Region
deriving Repr, DecidableEq

/-- The gutter adjustment inside `getRegion`: `top`/`left` grow inward by
the gutter, `right`/`bottom` shrink inward. -/
def gutterAdjust (s : CDrag) (I : Region) : Region :=
  { top := I.top + s.gutter.top
    left := I.left + s.gutter.left
    right := I.right - s.gutter.right
    bottom := I.bottom - s.gutter.bottom }

/-- `dd-constrain getRegion(include_xy)`: picks `constrain2node`'s region,
else `constrain2region`, else (when `constrain2view`) the viewport region,
else reports no region (`false`); applies the gutter, and when the flag is
set shrinks `right`/`bottom` by the drag node's width/height. -/
def getRegion (s : CDrag) (shrink : Bool) : Option Region :=
  match
    (if s.constrain2node.isSome then s.constrain2node
     else if s.constrain2region.isSome then s.constrain2region
     else if s.constrain2view then some s.viewport
     else none) with
  | none => none
  | some I =>
    let I := gutterAdjust s I
    some
      (if shrink then
        { I with right := I.right - s.nodeW, bottom := I.bottom - s.nodeH }
      else I)

/-- `dd-constrain _checkRegion(pos)`: with no region configured every
comparison against `undefined` is false and the position is returned
unchanged; otherwise each axis is raised to the region minimum and then
lowered to `regionMax - nodeExtent`, in that order. -/
def checkRegion (s : CDrag) (p : Int × Int) : Int × Int :=
  match getRegion s false with
  | none => p
  | some J =>
    let y1 := if J.top > p.2 then J.top else p.2
    let y2 := if y1 > J.bottom - s.nodeH then J.bottom - s.nodeH else y1
    let x1 := if J.left > p.1 then J.left else p.1
    let x2 := if x1 > J.right - s.nodeW then J.right - s.nodeW else x1
    (x2, y2)

/-- JavaScript truthiness of an optional numeric bound (`if(L&&K)` inside
the tick helpers): present and nonzero. -/
def otruthy (o : Option Int) : Bool :=
  match o with
  | none => false
  | some n => n != 0

/-- `dd-constrain _calcTicks(pos, start, tick, min, max)`: snaps `pos` to
the tick grid anchored at `start` via the floor of the exact quotient
`(pos - start) / tick`; when both bounds are truthy, a snapped value below
`min` is bumped up one tick and the (possibly updated) value above `max` is
dropped one tick from the floor. -/
def calcTicks (N M J : Int) (L K : Option Int) : Int :=
  let H : ℚ := ((N : ℚ) - (M : ℚ)) / (J : ℚ)
  let I : Int := ⌊H⌋
  let C : Int := ⌈H⌉
  if I ≠ 0 ∨ C ≠ 0 then
    if (I : ℚ) ≤ H ∧ H ≤ (C : ℚ) then
      let N1 := M + J * I
      if otruthy L && otruthy K then
        let l := L.getD 0
        let k := K.getD 0
        let N2 := if N1 < l then M + J * (I + 1) else N1
        if N2 > k then M + J * (I - 1) else N2
      else N1
    else N
  else N

/-- The scanning loop of `dd-constrain _calcTickArray`: from index `H`,
find the first index whose successor entry is truthy (present and nonzero)
and at least `pos`; pick the nearer of the two surrounding ticks, and when
both bounds are truthy replace a pick above `max` by the previous tick (or
the last tick when the previous entry is falsy); past the end, return the
last tick. -/
def ctaLoop (O : Int) (P : List Int) (N K : Option Int) (H : Nat) : Int :=
  if hH : H < P.length then
    let J := H + 1
    let pj := P.getD J 0
    if (decide (J < P.length) && (pj != 0)) && decide (pj ≥ O) then
      let I := O - P.getD H 0
      let c := pj - O
      let M0 := if c > I then P.getD H 0 else pj
      if otruthy N && otruthy K then
        if M0 > K.getD 0 then
          if P.getD H 0 != 0 then P.getD H 0 else P.getD (P.length - 1) 0
        else M0
      else M0
    else ctaLoop O P N K (H + 1)
  else P.getD (P.length - 1) 0
termination_by P.length - H

/-- `dd-constrain _calcTickArray(pos, ticks, min, max)`: empty tick list
returns the position; a first tick at or above the position is returned
directly; otherwise the linear scan `ctaLoop` runs from index 0. -/
def calcTickArray (O : Int) (P : List Int) (N K : Option Int) : Int :=
  if P.length = 0 then O
  else if P.getD 0 0 ≥ O then P.getD 0 0
  else ctaLoop O P N K 0

/-- `dd-constrain _checkTicks(pos, region)`: the initial click position of
the node anchors the grid; each axis is snapped by `_calcTicks` when the
scalar tick is truthy and no tick array is set, then by `_calcTickArray`
when a tick array is set; a missing region passes `undefined` (falsy)
bounds. -/
def checkTicks (s : CDrag) (L : Int × Int) (J : Option Region) : Int × Int :=
  let K := s.startXY.1 - s.deltaXY.1
  let I := s.startXY.2 - s.deltaXY.2
  let x1 :=
    if s.tickX ≠ 0 ∧ s.tickXArray.isNone then
      calcTicks L.1 K s.tickX (J.map Region.left) (J.map Region.right)
    else L.1
  let y1 :=
    if s.tickY ≠ 0 ∧ s.tickYArray.isNone then
      calcTicks L.2 I s.tickY (J.map Region.top) (J.map Region.bottom)
    else L.2
  let x2 :=
    match s.tickXArray with
    | some arr => calcTickArray x1 arr (J.map Region.left) (J.map Region.right)
    | none => x1
  let y2 :=
    match s.tickYArray with
    | some arr => calcTickArray y1 arr (J.map Region.top) (J.map Region.bottom)
    | none => y1
  (x2, y2)

/-- The base `_align` of the plain Drag, over the constrained state. -/
def alignBase (s : CDrag) (S : Int × Int) : Int × Int :=
  (S.1 - s.deltaXY.1, S.2 - s.deltaXY.2)

/-- `dd-constrain _align(xy)`: the superclass alignment, then `stickX`
pins the vertical coordinate (and `stickY` the horizontal one) to the
initial click position, then — when a region is configured — `_checkRegion`
clamps, then `_checkTicks` snaps. -/
def alignC (s : CDrag) (S : Int × Int) : Int × Int :=
  let C0 := alignBase s S
  let H := getRegion s true
  let C1 := if s.stickX then (C0.1, s.startXY.2 - s.deltaXY.2) else C0
  let C2 := if s.stickY then (s.startXY.1 - s.deltaXY.1, C1.2) else C1
  let C3 := match H with | some _ => checkRegion s C2 | none => C2
  checkTicks s C3 H

/-- The `constrain2node` attribute setter: refuses the node (stores the
falsy value) while a `constrain2region` rectangle is configured. -/
def setConstrain2node (s : CDrag) (n : Option Region) : CDrag :=
  if s.constrain2region.isSome then { s with constrain2node := none }
  else { s with constrain2node := n }

/-- The `constrain2region` attribute setter: accepts an object only when
all four of its `top`/`right`/`left`/`bottom` fields are truthy (nonzero);
anything else stores the falsy value.  It does not consult
`constrain2node`. -/
def setConstrain2region (s : CDrag) (r : Option Region) : CDrag :=
  match r with
  | some R =>
    if R.top ≠ 0 ∧ R.right ≠ 0 ∧ R.left ≠ 0 ∧ R.bottom ≠ 0 then
      { s with constrain2region := some R }
    else { s with constrain2region := none }
  | none => { s with constrain2region := none }

/-- A constrained-drag state with nothing configured, used as the base of
concrete scenarios. -/
def cInit : CDrag :=
  { startXY := (0, 0), deltaXY := (0, 0), nodeW := 0, nodeH := 0
    stickX := false, stickY := false, tickX := 0, tickY := 0
    tickXArray := none, tickYArray := none
    constrain2node := none, constrain2region := none, constrain2view := false
    viewport := { top := 0, right := 0, bottom := 0, left := 0 }
    gutter := { top := 0, right := 0, bottom := 0, left := 0 } }

/-- The fields of the active drag consulted during target activation: the
identity of its node and its group names. -/
structure DragG where
  nodeId : Nat
  groups : List String
deriving Repr, DecidableEq

/-- A Drop as seen by group matching and target activation: identity, node
identity, group names and the `lock` attribute. -/
structure DropG where
  id : Nat
  nodeId : Nat
  groups : List String
  lock : Bool
deriving Repr, DecidableEq

/-- The DDM state touched by target activation: the active drag and the
`validDrops` list. -/
structure DDMG where
  activeDrag : Option DragG
  validDrops : List DropG
deriving Repr, DecidableEq

/-- `Drop.inGroup(groups)`: scans the drag's group names and reports
whether any of them is in the drop's group set. -/
def inGroup (d : DropG) (dragGroups : List String) : Bool :=
  dragGroups.foldl (fun K g => if d.groups.contains g then true else K) false

/-- `DDM._addValid(drop)`: appends the drop to `validDrops`. -/
def addValid (m : DDMG) (d : DropG) : DDMG :=
  { m with validDrops := m.validDrops ++ [d] }

/-- `DDM._removeValid(drop)`: removes the drop (by identity) from
`validDrops`. -/
def removeValid (m : DDMG) (d : DropG) : DDMG :=
  { m with validDrops := m.validDrops.filter (fun e => decide (e ≠ d)) }

/-- The outcome of `Drop._activateShim`: an early return (no active drag,
the drop's node is the drag's own node, or the drop is locked), or the
valid/invalid classification. -/
inductive ShimResult where
  | noDrag
  | selfNode
  | locked
  | valid
  | invalid
deriving Repr, DecidableEq

/-- `Drop._activateShim()`: early-returns without touching `validDrops`
when there is no active drag, when the drop's node is the active drag's own
node, or when the drop is locked; otherwise adds the drop to `validDrops`
exactly when `inGroup` holds for the active drag's groups, and removes it
otherwise. -/
def activateShim (m : DDMG) (d : DropG) : DDMG × ShimResult :=
  match m.activeDrag with
  | none => (m, ShimResult.noDrag)
  | some drag =>
    if d.nodeId = drag.nodeId then (m, ShimResult.selfNode)
    else if d.lock then (m, ShimResult.locked)
    else if inGroup d drag.groups then (addValid m d, ShimResult.valid)
    else (removeValid m d, ShimResult.invalid)

/-- A concrete Drag in its idle state, used by the scenario theorems. -/
def dInit : DragSt :=
  { startXY := (0, 0), nodeXY := (0, 0), lastXY := (0, 0), deltaXY := (0, 0)
    mouseXY := none, offsetNode := true, lock := false, dragging := false
    dragThreshMet := false, clickPixelThresh := 3
    startFires := 0, endFires := 0 }

/-- Counterexample to claim C2 as stated: in STRICT mode, a drag whose
node region `{top 1, right 9, bottom 9, left 1}` is fully contained in the
drop's region `{top 0, right 10, bottom 10, left 0}` still gets
`isOverTarget = false` when no pointer position has been recorded yet
(`mouseXY` is null, as it is between the pointer-down and the first
pointer-move, e.g. on a click-timer promotion) — so `isOverTarget` in
STRICT mode is not equivalent to full containment unconditionally. -/
theorem isOverTarget_strict_no_mouse :
    isOverTarget
        (some { mouseXY := none, dragMode := 2
                region := { top := 1, right := 9, bottom := 9, left := 1 } })
        (some { region := { top := 0, right := 10, bottom := 10, left := 0 } })
      = false ∧
      (2 : Nat) = STRICT ∧
      ((0 : Int) ≤ 1 ∧ (9 : Int) ≤ 10 ∧ (0 : Int) ≤ 1 ∧ (9 : Int) ≤ 10) := by
  decide

/-- Claim C2 amended: for every active Drag `D` and Drop `B`, when `D`'s
drag mode is STRICT and a pointer position has been recorded (`mouseXY` is
set, as it is on every pointer-move), `isOverTarget` returns true if and
only if `D`'s full node region is contained within `B`'s region (full
containment on all four sides, not mere overlap); with no recorded pointer
position it returns false regardless of containment (see
`isOverTarget_strict_no_mouse`). -/
theorem isOverTarget_strict_iff :
    (∀ (D : DragHit) (B : DropHit) (c : Int × Int), D.mouseXY = some c →
        D.dragMode = STRICT →
        (isOverTarget (some D) (some B) = true ↔
          B.region.left ≤ D.region.left ∧ D.region.right ≤ B.region.right ∧
            B.region.top ≤ D.region.top ∧
            D.region.bottom ≤ B.region.bottom)) ∧
      (∀ (D : DragHit) (B : DropHit), D.mouseXY = none →
          isOverTarget (some D) (some B) = false) := by
  constructor
  · intro D B c hm hmode
    simp [isOverTarget, hm, hmode, inRegionAll, and_assoc]
  · intro D B hm
    simp [isOverTarget, hm]

/-- Witness for `isOverTarget_strict_iff` at a concrete drag and drop:
with a recorded pointer position a contained drag region reports true,
and without one the same geometry reports false. -/
theorem isOverTarget_strict_iff_witness :
    isOverTarget
        (some { mouseXY := some (5, 5), dragMode := 2
                region := { top := 1, right := 9, bottom := 9, left := 1 } })
        (some { region := { top := 0, right := 10, bottom := 10, left := 0 } })
      = true ∧
      isOverTarget
        (some { mouseXY := none, dragMode := 2
                region := { top := 1, right := 9, bottom := 9, left := 1 } })
        (some { region := { top := 0, right := 10, bottom := 10, left := 0 } })
      = false :=
  ⟨(isOverTarget_strict_iff.1
      { mouseXY := some (5, 5), dragMode := 2
        region := { top := 1, right := 9, bottom := 9, left := 1 } }
      { region := { top := 0, right := 10, bottom := 10, left := 0 } }
      (5, 5) rfl rfl).mpr (by decide),
    isOverTarget_strict_iff.2
      { mouseXY := none, dragMode := 2
        region := { top := 1, right := 9, bottom := 9, left := 1 } }
      { region := { top := 0, right := 10, bottom := 10, left := 0 } } rfl⟩

/-- Claim C9: `isOverTarget` is a total function (so runtime hit-testing
raises no exception in the embedding) and yields `false` whenever there is
no active drag, no drop argument, or no recorded pointer position. -/
theorem isOverTarget_guard (a : Option DragHit) (b : Option DropHit) :
    (a = none ∨ b = none → isOverTarget a b = false) ∧
      (∀ D, a = some D → D.mouseXY = none → isOverTarget a b = false) := by
  constructor
  · rintro (rfl | rfl)
    · cases b <;> rfl
    · cases a <;> rfl
  · rintro D rfl hm
    cases b with
    | none => rfl
    | some B => simp [isOverTarget, hm]

/-- Witness for `isOverTarget_guard`: no active drag yields `false`. -/
theorem isOverTarget_guard_witness :
    isOverTarget none
        (some { region := { top := 0, right := 10, bottom := 10, left := 0 } })
      = false :=
  (isOverTarget_guard none
      (some { region := { top := 0, right := 10, bottom := 10, left := 0 } })).1
    (Or.inl rfl)

/-- Claim C3: `_moveNode` always records the aligned position, the pointer
page-coordinate minus the captured `deltaXY`; and in the concrete scenario
(node at (100,100), pointer-down at (105,102), pointer-move to (150,160))
the drag promotes to dragging, fires `drag:start` once, and tracks the
node at (145,158). -/
theorem moveNode_align_scenario :
    (∀ (s : DragSt) (p : Int × Int),
        (moveNode s p).lastXY = (p.1 - s.deltaXY.1, p.2 - s.deltaXY.2)) ∧
      ((handleMouseDown dInit (100, 100) (105, 102)).deltaXY = (5, 2) ∧
        (drun (handleMouseDown dInit (100, 100) (105, 102))
            [DEv.move (150, 160)]).dragging = true ∧
        (drun (handleMouseDown dInit (100, 100) (105, 102))
            [DEv.move (150, 160)]).lastXY = (145, 158) ∧
        (drun (handleMouseDown dInit (100, 100) (105, 102))
            [DEv.move (150, 160)]).startFires = 1) :=
  ⟨fun _ _ => rfl, by decide⟩

/-- Claim C10: during target activation, a Drop whose node is the active
drag's own node, or whose `lock` attribute is set, leaves the DDM state
untouched and is never classified valid; in particular it never enters
`validDrops`. -/
theorem activateShim_self_lock (m : DDMG) (drag : DragG) (d : DropG)
    (hd : m.activeDrag = some drag)
    (h : d.nodeId = drag.nodeId ∨ d.lock = true) :
    (activateShim m d).1 = m ∧ (activateShim m d).2 ≠ ShimResult.valid ∧
      (d ∉ m.validDrops → d ∉ (activateShim m d).1.validDrops) := by
  by_cases hn : d.nodeId = drag.nodeId
  · simp [activateShim, hd, hn]
  · rcases h with h | h
    · exact absurd h hn
    · simp [activateShim, hd, hn, h]

/-- Witness for `activateShim_self_lock`: a locked drop sharing the drag's
group is not activated. -/
theorem activateShim_self_lock_witness :
    (activateShim { activeDrag := some { nodeId := 1, groups := ["a"] }
                    validDrops := [] }
        { id := 7, nodeId := 2, groups := ["a"], lock := true }).1
        = { activeDrag := some { nodeId := 1, groups := ["a"] }
            validDrops := [] } ∧
      (activateShim { activeDrag := some { nodeId := 1, groups := ["a"] }
                      validDrops := [] }
          { id := 7, nodeId := 2, groups := ["a"], lock := true }).2
        ≠ ShimResult.valid :=
  ⟨(activateShim_self_lock _ { nodeId := 1, groups := ["a"] } _ rfl
      (Or.inr rfl)).1,
    (activateShim_self_lock _ { nodeId := 1, groups := ["a"] } _ rfl
      (Or.inr rfl)).2.1⟩

/-- The accumulation of `Drop.inGroup` is a disjunction: the fold returns
true exactly when the seed was true or some drag group is contained in the
drop's groups. -/
theorem inGroup_foldl (d : DropG) (G : List String) (b : Bool) :
    G.foldl (fun K g => if d.groups.contains g then true else K) b
      = (b || G.any (fun g => d.groups.contains g)) := by
  induction G generalizing b with
  | nil => simp
  | cons g rest ih =>
    rw [List.foldl_cons, ih, List.any_cons]
    cases hc : d.groups.contains g
    · simp
    · simp

/-- Claim C8: `inGroup` holds exactly when the Drag's and the Drop's group
sets intersect; during activation (past the self-node and lock guards) a
Drop lands in `validDrops` exactly when `inGroup` holds for the active
drag's groups, and is removed otherwise; a Drop with groups `{"b"}` is
never eligible for a Drag with groups `{"a"}`, while `{"a","b"}` is. -/
theorem inGroup_activateShim_spec :
    (∀ (d : DropG) (G : List String),
        inGroup d G = true ↔ ∃ g, g ∈ G ∧ g ∈ d.groups) ∧
      (∀ (m : DDMG) (drag : DragG) (d : DropG),
          m.activeDrag = some drag → d.nodeId ≠ drag.nodeId →
            d.lock = false →
            ((d ∈ (activateShim m d).1.validDrops ↔
                inGroup d drag.groups = true) ∧
              (inGroup d drag.groups = false →
                d ∉ (activateShim m d).1.validDrops))) ∧
      (inGroup { id := 0, nodeId := 0, groups := ["b"], lock := false }
          ["a"] = false ∧
        inGroup { id := 0, nodeId := 0, groups := ["a", "b"], lock := false }
          ["a"] = true) := by
  refine ⟨?_, ?_, by decide⟩
  · intro d G
    unfold inGroup
    rw [inGroup_foldl]
    simp
  · intro m drag d hd hn hl
    by_cases hg : inGroup d drag.groups = true
    · simp [activateShim, hd, hn, hl, hg, addValid]
    · simp only [Bool.not_eq_true] at hg
      simp [activateShim, hd, hn, hl, hg, removeValid, List.mem_filter]

/-- The concrete DDM state of the group-matching witness. -/
def mW : DDMG :=
  { activeDrag := some { nodeId := 1, groups := ["a"] }, validDrops := [] }

/-- The concrete Drop of the group-matching witness. -/
def dW : DropG := { id := 5, nodeId := 2, groups := ["a", "b"], lock := false }

/-- Witness for `inGroup_activateShim_spec`: a drop with groups
`{"a","b"}` enters `validDrops` of a drag with groups `{"a"}`. -/
theorem inGroup_activateShim_spec_witness :
    dW ∈ (activateShim mW dW).1.validDrops :=
  ((inGroup_activateShim_spec.2.1 mW { nodeId := 1, groups := ["a"] } dW
      rfl (by decide) rfl).1).mpr (by decide)

/-- A constrained drag whose 10×10 constraint region is smaller than its
20×20 node. -/
def s7 : CDrag :=
  { cInit with
    constrain2node := some { top := 0, right := 10, bottom := 10, left := 0 }
    nodeW := 20, nodeH := 20 }

/-- Counterexample to claim C7 as stated: with the 10-pixel-wide region
`{top 0, right 10, bottom 10, left 0}` and a 20-pixel node, `_checkRegion`
clamps (100,100) to (-10,-10), whose x-coordinate lies strictly left of the
region's left edge 0 — the node does not stay inside the constrained area
when the region is smaller than the node (the upper clamp wins). -/
theorem checkRegion_node_outside :
    checkRegion s7 (100, 100) = (-10, -10) ∧
      getRegion s7 false
        = some { top := 0, right := 10, bottom := 10, left := 0 } ∧
      (checkRegion s7 (100, 100)).1 < 0 := by decide

/-- Claim C7 amended: `_checkRegion` is idempotent; a position already
inside `[regionMin, regionMax - nodeExtent]` on both axes is returned
unchanged; and the clamped position keeps the node inside the constrained
area whenever the region is at least as large as the node on each axis
(when the region is smaller the upper clamp wins and the node can stick
out past the region minimum, as `checkRegion_node_outside` shows). -/
theorem checkRegion_amended :
    (∀ (s : CDrag) (p : Int × Int),
        checkRegion s (checkRegion s p) = checkRegion s p) ∧
      (∀ (s : CDrag) (p : Int × Int) (J : Region),
          getRegion s false = some J →
            J.left ≤ p.1 → p.1 ≤ J.right - s.nodeW →
            J.top ≤ p.2 → p.2 ≤ J.bottom - s.nodeH →
            checkRegion s p = p) ∧
      (∀ (s : CDrag) (p : Int × Int) (J : Region),
          getRegion s false = some J →
            s.nodeW ≤ J.right - J.left → s.nodeH ≤ J.bottom - J.top →
            J.left ≤ (checkRegion s p).1 ∧
              (checkRegion s p).1 + s.nodeW ≤ J.right ∧
              J.top ≤ (checkRegion s p).2 ∧
              (checkRegion s p).2 + s.nodeH ≤ J.bottom) := by
  refine ⟨?_, ?_, ?_⟩
  · intro s p
    cases h : getRegion s false with
    | none => simp [checkRegion, h]
    | some J =>
      simp only [checkRegion, h]
      split_ifs <;> simp_all
  · intro s p J h h1 h2 h3 h4
    simp only [checkRegion, h]
    split_ifs <;> simp_all <;> omega
  · intro s p J h hw hh
    simp only [checkRegion, h]
    split_ifs <;> simp_all <;> omega

/-- Witness for `checkRegion_amended` at a concrete region-configured
state and position. -/
theorem checkRegion_amended_witness :
    (checkRegion s7 (checkRegion s7 (100, 100)) = checkRegion s7 (100, 100)) ∧
      checkRegion { s7 with nodeW := 4, nodeH := 4 } (3, 3) = (3, 3) ∧
      ({ top := 0, right := 10, bottom := 10, left := 0 } : Region).left
          ≤ (checkRegion { s7 with nodeW := 4, nodeH := 4 } (100, 100)).1 ∧
        (checkRegion { s7 with nodeW := 4, nodeH := 4 } (100, 100)).1 + 4
          ≤ ({ top := 0, right := 10, bottom := 10, left := 0 } : Region).right :=
  ⟨checkRegion_amended.1 s7 (100, 100),
    checkRegion_amended.2.1 { s7 with nodeW := 4, nodeH := 4 } (3, 3)
      { top := 0, right := 10, bottom := 10, left := 0 }
      (by decide) (by decide) (by decide) (by decide) (by decide),
    (checkRegion_amended.2.2 { s7 with nodeW := 4, nodeH := 4 } (100, 100)
        { top := 0, right := 10, bottom := 10, left := 0 }
        (by decide) (by decide) (by decide)).1,
    ((checkRegion_amended.2.2 { s7 with nodeW := 4, nodeH := 4 } (100, 100)
        { top := 0, right := 10, bottom := 10, left := 0 }
        (by decide) (by decide) (by decide)).2).1⟩

/-- The node region configured first in the priority counterexample. -/
def rNode6 : Region := { top := 2, right := 60, bottom := 60, left := 2 }

/-- The explicit rectangle configured second in the priority
counterexample. -/
def rRect6 : Region := { top := 1, right := 50, bottom := 50, left := 1 }

/-- The state reached by setting `constrain2node` first and
`constrain2region` afterwards: both end up configured. -/
def s6 : CDrag :=
  setConstrain2region (setConstrain2node cInit (some rNode6)) (some rRect6)

/-- Counterexample to claim C6 as stated: with a reference node configured
before an explicit rectangle, both attributes are configured, yet
`getRegion` resolves to the node's bounding region, not the rectangle —
the explicitly configured rectangle does not take priority over the
configured reference node. -/
theorem getRegion_node_over_rect :
    s6.constrain2node = some rNode6 ∧ s6.constrain2region = some rRect6 ∧
      getRegion s6 false = some rNode6 ∧ rNode6 ≠ rRect6 := by decide

/-- Claim C6 amended: `getRegion` gives a configured reference node's
bounding region priority over an explicitly configured rectangle, which
takes priority over the viewport; the `constrain2node` setter refuses a
node while a rectangle is already configured (so a rectangle configured
first wins by preventing the node, but not the other way around); with
none of the three sources configured, `getRegion` reports no region and no
constraint is applied to the position. -/
theorem getRegion_priority_amended :
    (∀ (s : CDrag) (R : Region), s.constrain2node = some R →
        getRegion s false = some (gutterAdjust s R)) ∧
      (∀ (s : CDrag) (R : Region), s.constrain2node = none →
          s.constrain2region = some R →
          getRegion s false = some (gutterAdjust s R)) ∧
      (∀ s : CDrag, s.constrain2node = none → s.constrain2region = none →
          s.constrain2view = true →
          getRegion s false = some (gutterAdjust s s.viewport)) ∧
      (∀ (s : CDrag) (b : Bool) (p S : Int × Int), s.constrain2node = none →
          s.constrain2region = none → s.constrain2view = false →
          (getRegion s b = none ∧ checkRegion s p = p ∧
            (s.stickX = false → s.stickY = false → s.tickX = 0 →
              s.tickY = 0 → s.tickXArray = none → s.tickYArray = none →
              alignC s S = alignBase s S))) ∧
      (∀ (s : CDrag) (n : Option Region), s.constrain2region.isSome →
          (setConstrain2node s n).constrain2node = none) := by
  refine ⟨?_, ?_, ?_, ?_, ?_⟩
  · intro s R h
    simp [getRegion, h]
  · intro s R h1 h2
    simp [getRegion, h1, h2]
  · intro s h1 h2 h3
    simp [getRegion, h1, h2, h3]
  · intro s b p S h1 h2 h3
    have hr : ∀ c : Bool, getRegion s c = none := by
      intro c
      simp [getRegion, h1, h2, h3]
    refine ⟨hr b, by simp [checkRegion, hr false], ?_⟩
    intro hsx hsy htx hty hax hay
    simp [alignC, hr true, checkRegion, hr false, checkTicks, hsx, hsy,
      htx, hty, hax, hay]
  · intro s n h
    simp [setConstrain2node, h]

/-- An unconstrained drag with a nonzero pointer offset, for the priority
witness. -/
def s6free : CDrag := { cInit with deltaXY := (5, 2) }

/-- Witness for `getRegion_priority_amended` at concrete states. -/
theorem getRegion_priority_amended_witness :
    getRegion s6 false = some (gutterAdjust s6 rNode6) ∧
      getRegion s6free false = none ∧
      alignC s6free (50, 60) = alignBase s6free (50, 60) :=
  ⟨getRegion_priority_amended.1 s6 rNode6 (by decide),
    (getRegion_priority_amended.2.2.2.1 s6free false (0, 0) (50, 60)
        rfl rfl rfl).1,
    (getRegion_priority_amended.2.2.2.1 s6free false (0, 0) (50, 60)
        rfl rfl rfl).2.2 rfl rfl rfl rfl rfl rfl⟩

/-- The true intersection area is never negative. -/
theorem interArea_nonneg (r1 r2 : Region) : 0 ≤ interArea r1 r2 :=
  mul_nonneg (le_max_left _ _) (le_max_left _ _)

/-- The update condition of the `getBestMatch` loop agrees with the true
intersection area whenever the running best is nonnegative: a candidate is
`inRegion` with raw area above `e` exactly when its true intersection area
exceeds `e`. -/
theorem gbm_cond_iff (dragR r : Region) (e : Int) (he : 0 ≤ e) :
    ((intersectInfo dragR r).inRegion = true ∧
        (intersectInfo dragR r).area > e) ↔ e < interArea dragR r := by
  by_cases h1 : max dragR.top r.top ≤ min dragR.bottom r.bottom
  · by_cases h2 : max dragR.left r.left ≤ min dragR.right r.right
    · have harea : interArea dragR r
          = (min dragR.bottom r.bottom - max dragR.top r.top) *
            (min dragR.right r.right - max dragR.left r.left) := by
        unfold interArea
        rw [max_eq_right (by omega : (0 : ℤ) ≤
            min dragR.bottom r.bottom - max dragR.top r.top),
          max_eq_right (by omega : (0 : ℤ) ≤
            min dragR.right r.right - max dragR.left r.left)]
      simp [intersectInfo, h1, h2, harea]
    · have harea : interArea dragR r = 0 := by
        unfold interArea
        rw [max_eq_left (by omega :
            min dragR.right r.right - max dragR.left r.left ≤ (0 : ℤ)),
          mul_zero]
      simp only [intersectInfo, Bool.and_eq_true, decide_eq_true_eq, harea]
      constructor
      · rintro ⟨⟨-, hx⟩, -⟩
        exact absurd hx h2
      · intro hx
        omega
  · have harea : interArea dragR r = 0 := by
      unfold interArea
      rw [max_eq_left (by omega :
          min dragR.bottom r.bottom - max dragR.top r.top ≤ (0 : ℤ)),
        zero_mul]
    simp only [intersectInfo, Bool.and_eq_true, decide_eq_true_eq, harea]
    constructor
    · rintro ⟨⟨hx, -⟩, -⟩
      exact absurd hx h1
    · intro hx
      omega

/-- When a candidate overlaps the drag region, the raw area computed by
`intersect` equals the true intersection area. -/
theorem gbm_area_eq (dragR r : Region)
    (h : (intersectInfo dragR r).inRegion = true) :
    (intersectInfo dragR r).area = interArea dragR r := by
  simp only [intersectInfo, Bool.and_eq_true, decide_eq_true_eq] at h
  simp only [intersectInfo, interArea]
  rw [max_eq_right (by omega : (0 : ℤ) ≤
      min dragR.bottom r.bottom - max dragR.top r.top),
    max_eq_right (by omega : (0 : ℤ) ≤
      min dragR.right r.right - max dragR.left r.left)]

/-- Invariant of the `getBestMatch` loop: starting from a nonnegative best
area, either nothing improves (the seed winner is returned and every
scanned candidate's area is at most `e`), or some candidate beating `e`
and every earlier candidate is returned, bounding every scanned
candidate's area. -/
theorem gbmGo_spec (dragR : Region) (l : List DropC) :
    ∀ (b : Option DropC) (e : Int), 0 ≤ e →
      (gbmGo dragR l b e = b ∧
          ∀ c ∈ l, interArea dragR c.nodeRegion ≤ e) ∨
        (∃ w l1 l2, gbmGo dragR l b e = some w ∧ l = l1 ++ w :: l2 ∧
          e < interArea dragR w.nodeRegion ∧
          (∀ c ∈ l1,
            interArea dragR c.nodeRegion < interArea dragR w.nodeRegion) ∧
          (∀ c ∈ l,
            interArea dragR c.nodeRegion ≤ interArea dragR w.nodeRegion)) := by
  induction l with
  | nil => exact fun b e _ => Or.inl ⟨rfl, by simp⟩
  | cons c rest ih =>
    intro b e he
    by_cases hc : (intersectInfo dragR c.nodeRegion).inRegion = true ∧
        (intersectInfo dragR c.nodeRegion).area > e
    · have himp : e < interArea dragR c.nodeRegion :=
        (gbm_cond_iff dragR c.nodeRegion e he).mp hc
      have harea : (intersectInfo dragR c.nodeRegion).area
          = interArea dragR c.nodeRegion := gbm_area_eq dragR c.nodeRegion hc.1
      have hstep : gbmGo dragR (c :: rest) b e
          = gbmGo dragR rest (some c) (intersectInfo dragR c.nodeRegion).area
        := by simp [gbmGo, hc]
      have he' : 0 ≤ (intersectInfo dragR c.nodeRegion).area :=
        harea.symm ▸ interArea_nonneg dragR c.nodeRegion
      rcases ih (some c) (intersectInfo dragR c.nodeRegion).area he' with
        ⟨hres, hall⟩ | ⟨w, l1, l2, hres, hsplit, hgt, hpre, hall⟩
      · refine Or.inr ⟨c, [], rest, ?_, by simp, himp, by simp, ?_⟩
        · rw [hstep, hres]
        · intro x hx
          rcases List.mem_cons.mp hx with rfl | hx
          · exact le_refl _
          · exact le_trans (hall x hx) (le_of_eq harea)
      · have hcw : interArea dragR c.nodeRegion
            < interArea dragR w.nodeRegion := harea ▸ hgt
        refine Or.inr ⟨w, c :: l1, l2, ?_, by simp [hsplit],
          lt_trans himp hcw, ?_, ?_⟩
        · rw [hstep, hres]
        · intro x hx
          rcases List.mem_cons.mp hx with rfl | hx
          · exact hcw
          · exact hpre x hx
        · intro x hx
          rcases List.mem_cons.mp hx with rfl | hx
          · exact le_of_lt hcw
          · exact hall x (hsplit ▸ hx)
    · have hle : interArea dragR c.nodeRegion ≤ e := by
        by_contra hlt
        exact hc ((gbm_cond_iff dragR c.nodeRegion e he).mpr (by omega))
      have hstep : gbmGo dragR (c :: rest) b e = gbmGo dragR rest b e := by
        simp [gbmGo, hc]
      rcases ih b e he with
        ⟨hres, hall⟩ | ⟨w, l1, l2, hres, hsplit, hgt, hpre, hall⟩
      · refine Or.inl ⟨by rw [hstep, hres], ?_⟩
        intro x hx
        rcases List.mem_cons.mp hx with rfl | hx
        · exact hle
        · exact hall x hx
      · refine Or.inr ⟨w, c :: l1, l2, by rw [hstep, hres],
          by simp [hsplit], hgt, ?_, ?_⟩
        · intro x hx
          rcases List.mem_cons.mp hx with rfl | hx
          · exact lt_of_le_of_lt hle hgt
          · exact hpre x hx
        · intro x hx
          rcases List.mem_cons.mp hx with rfl | hx
          · exact le_of_lt (lt_of_le_of_lt hle hgt)
          · exact hall x (hsplit ▸ hx)

/-- Claim C1: when `getBestMatch` returns a winner, that winner is a
candidate with strictly positive intersection area with the drag-node
rectangle, maximal among all candidates, and every candidate before it in
iteration order has strictly smaller area (ties go to the first maximal
candidate); no winner is returned exactly when every candidate's
intersection area is zero; and the losers list contains exactly the
candidates other than the winner. -/
theorem getBestMatch_correct (dragR : Region) (cands : List DropC) :
    (∀ w, getBestMatch dragR cands = some w →
        0 < interArea dragR w.nodeRegion ∧
          (∀ c ∈ cands,
            interArea dragR c.nodeRegion ≤ interArea dragR w.nodeRegion) ∧
          ∃ l1 l2, cands = l1 ++ w :: l2 ∧
            ∀ c ∈ l1,
              interArea dragR c.nodeRegion < interArea dragR w.nodeRegion) ∧
      (getBestMatch dragR cands = none ↔
        ∀ c ∈ cands, interArea dragR c.nodeRegion = 0) ∧
      (∀ c : DropC, c ∈ (getBestMatchAll dragR cands).2 ↔
        c ∈ cands ∧ some c ≠ getBestMatch dragR cands) ∧
      (getBestMatchAll dragR cands).1 = getBestMatch dragR cands := by
  have hmain := gbmGo_spec dragR cands none 0 (le_refl 0)
  refine ⟨?_, ?_, ?_, rfl⟩
  · intro w hw
    rcases hmain with ⟨hres, -⟩ | ⟨w', l1, l2, hres, hsplit, hgt, hpre, hall⟩
    · rw [getBestMatch, hres] at hw
      exact absurd hw (by simp)
    · rw [getBestMatch, hres] at hw
      cases Option.some.inj hw
      exact ⟨hgt, hall, l1, l2, hsplit, hpre⟩
  · constructor
    · intro hnone c hcmem
      rcases hmain with ⟨-, hall⟩ | ⟨w', l1, l2, hres, -, -, -, -⟩
      · exact le_antisymm (hall c hcmem) (interArea_nonneg dragR c.nodeRegion)
      · rw [getBestMatch, hres] at hnone
        exact absurd hnone (by simp)
    · intro hzero
      rcases hmain with ⟨hres, -⟩ | ⟨w', l1, l2, hres, hsplit, hgt, -, -⟩
      · rw [getBestMatch, hres]
      · have hwmem : w' ∈ cands := by
          rw [hsplit]
          exact List.mem_append_right l1 (List.mem_cons_self w' l2)
        rw [hzero w' hwmem] at hgt
        exact absurd hgt (by omega)
  · intro c
    simp [getBestMatchAll, List.mem_filter]

/-- The drag-node region of the spec's concrete intersect scenario. -/
def dragR8 : Region := { top := 50, right := 150, bottom := 150, left := 50 }

/-- The overlapping drop of the spec's concrete intersect scenario. -/
def drop8a : DropC :=
  { id := 1, nodeRegion := { top := 0, right := 100, bottom := 100, left := 0 } }

/-- The non-overlapping drop of the spec's concrete intersect scenario. -/
def drop8b : DropC :=
  { id := 2
    nodeRegion := { top := 500, right := 600, bottom := 600, left := 500 } }

/-- Witness for `getBestMatch_correct`: in the spec's scenario the 50×50
overlap of area 2500 wins against a non-overlapping drop, and the loser
list is exactly the other drop. -/
theorem getBestMatch_correct_witness :
    interArea dragR8 drop8a.nodeRegion = 2500 ∧
      (0 < interArea dragR8 drop8a.nodeRegion ∧
        (∀ c ∈ [drop8a, drop8b],
          interArea dragR8 c.nodeRegion ≤ interArea dragR8 drop8a.nodeRegion) ∧
        ∃ l1 l2, [drop8a, drop8b] = l1 ++ drop8a :: l2 ∧
          ∀ c ∈ l1,
            interArea dragR8 c.nodeRegion < interArea dragR8 drop8a.nodeRegion) ∧
      (drop8b ∈ (getBestMatchAll dragR8 [drop8a, drop8b]).2 ↔
        drop8b ∈ [drop8a, drop8b] ∧
          some drop8b ≠ getBestMatch dragR8 [drop8a, drop8b]) :=
  ⟨by decide,
    (getBestMatch_correct dragR8 [drop8a, drop8b]).1 drop8a (by decide),
    (getBestMatch_correct dragR8 [drop8a, drop8b]).2.2.1 drop8b⟩

/-- A pending drag fed only sub-threshold moves changes nothing but its
recorded pointer position. -/
theorem drun_pending (evs : List DEv) :
    ∀ s : DragSt, s.dragThreshMet = false → s.dragging = false →
      (∀ e ∈ evs, evSmallB s e = true) →
      ∃ m, drun s evs = { s with mouseXY := m } := by
  induction evs with
  | nil => exact fun s _ _ _ => ⟨s.mouseXY, rfl⟩
  | cons e rest ih =>
    intro s h1 h2 h3
    cases e with
    | timeout =>
      have := h3 DEv.timeout (by simp)
      simp [evSmallB] at this
    | move p =>
      have hsm := h3 (DEv.move p) (by simp)
      simp only [evSmallB, Bool.and_eq_true, decide_eq_true_eq] at hsm
      show ∃ m, drun (moveEv s p) rest = _
      by_cases hl : s.lock = true
      · rw [show moveEv s p = s by simp [moveEv, hl]]
        exact ih s h1 h2 fun e he => h3 e (List.mem_cons_of_mem _ he)
      · simp only [Bool.not_eq_true] at hl
        have hstep : moveEv s p = { s with mouseXY := some p } := by
          simp only [moveEv, hl, h1]
          simp only [Bool.false_eq_true, if_false, Bool.not_false, if_true]
          rw [if_neg]
          push_neg
          exact ⟨by omega, by omega⟩
        rw [hstep]
        rcases ih { s with mouseXY := some p } h1 h2
            (fun e he => h3 e (List.mem_cons_of_mem _ he)) with ⟨m, hm⟩
        exact ⟨m, hm⟩

/-- A pointer move delivered after the threshold is met keeps the drag
dragging, keeps the threshold met, and does not change `startFires`. -/
theorem moveEv_preserve (s : DragSt) (p : Int × Int)
    (h1 : s.dragging = true) (h2 : s.dragThreshMet = true) :
    (moveEv s p).dragging = true ∧ (moveEv s p).startFires = s.startFires ∧
      (moveEv s p).dragThreshMet = true := by
  by_cases hl : s.lock = true
  · simp [moveEv, hl, h1, h2]
  · simp only [Bool.not_eq_true] at hl
    simp [moveEv, hl, h1, h2, moveNode]

/-- A click-timer expiry delivered after the drag is already dragging
keeps it dragging, keeps the threshold met, and does not re-fire
`drag:start`. -/
theorem timeoutCheck_preserve (s : DragSt)
    (h1 : s.dragging = true) (h2 : s.dragThreshMet = true) :
    (timeoutCheck s).dragging = true ∧
      (timeoutCheck s).startFires = s.startFires ∧
      (timeoutCheck s).dragThreshMet = true := by
  by_cases hl : s.lock = true
  · simp [timeoutCheck, hl, h1, h2]
  · simp only [Bool.not_eq_true] at hl
    simp [timeoutCheck, hl, start, h1, moveNode]

/-- Once a drag is dragging with the threshold met, further events keep it
dragging and never re-fire `drag:start`. -/
theorem drun_dragging (evs : List DEv) :
    ∀ s : DragSt, s.dragging = true → s.dragThreshMet = true →
      (drun s evs).dragging = true ∧
        (drun s evs).startFires = s.startFires := by
  induction evs with
  | nil => exact fun s h1 _ => ⟨h1, rfl⟩
  | cons e rest ih =>
    intro s h1 h2
    have key : (dstep s e).dragging = true ∧
        (dstep s e).startFires = s.startFires ∧
        (dstep s e).dragThreshMet = true := by
      cases e with
      | move p => exact moveEv_preserve s p h1 h2
      | timeout => exact timeoutCheck_preserve s h1 h2
    have hrest := ih (dstep s e) key.1 key.2.2
    exact ⟨hrest.1, by rw [show (drun s (e :: rest)).startFires
      = (drun (dstep s e) rest).startFires from rfl, hrest.2, key.2.1]⟩

/-- Promotion of a pending drag by one threshold-exceeding event: it
becomes dragging with the threshold met and fires `drag:start` once. -/
theorem dstep_promote (s : DragSt) (e : DEv)
    (h1 : s.dragThreshMet = false) (h2 : s.dragging = false)
    (h3 : s.lock = false) (hx : evExceedsB s e = true) :
    (dstep s e).dragging = true ∧ (dstep s e).dragThreshMet = true ∧
      (dstep s e).startFires = s.startFires + 1 := by
  cases e with
  | move p =>
    simp only [evExceedsB, Bool.or_eq_true, decide_eq_true_eq] at hx
    have hstep : dstep s (DEv.move p)
        = moveNode
            (start { s with mouseXY := some p, dragThreshMet := true }) p := by
      show moveEv s p = _
      simp only [moveEv, h3, h1]
      simp only [Bool.false_eq_true, if_false, Bool.not_false, if_true]
      rw [if_pos hx]
    rw [hstep]
    simp [start, moveNode, h3, h2]
  | timeout =>
    have hstep : dstep s DEv.timeout
        = moveNode (start { s with dragThreshMet := true }) s.startXY := by
      show timeoutCheck s = _
      simp [timeoutCheck, h3]
    rw [hstep]
    simp [start, moveNode, h3, h2]

/-- Claim C4: a pending drag fed only pointer moves within
`clickPixelThresh` on each axis (and no expiry of the `clickTimeThresh`
timer) never becomes dragging, never fires `drag:start`, and a pointer-up
then fires no `drag:end`; while the first event exceeding either threshold
(an over-threshold move, or the click-timer expiry) promotes the drag and
fires `drag:start` exactly once, whatever events follow. -/
theorem clickVsDrag_thresholds :
    (∀ (s : DragSt) (evs : List DEv),
        s.dragThreshMet = false → s.dragging = false →
        (∀ e ∈ evs, evSmallB s e = true) →
        (drun s evs).dragging = false ∧
          (drun s evs).startFires = s.startFires ∧
          (endDrag (drun s evs)).endFires = s.endFires) ∧
      (∀ (s : DragSt) (pre post : List DEv) (e : DEv),
          s.dragThreshMet = false → s.dragging = false → s.lock = false →
          (∀ e1 ∈ pre, evSmallB s e1 = true) → evExceedsB s e = true →
          (drun s (pre ++ e :: post)).dragging = true ∧
            (drun s (pre ++ e :: post)).startFires = s.startFires + 1) := by
  constructor
  · intro s evs h1 h2 h3
    rcases drun_pending evs s h1 h2 h3 with ⟨m, hm⟩
    rw [hm]
    exact ⟨h2, rfl, by simp [endDrag, h2]⟩
  · intro s pre post e h1 h2 h3 hpre hx
    rcases drun_pending pre s h1 h2 hpre with ⟨m, hm⟩
    have hx1 : evExceedsB { s with mouseXY := m } e = true := by
      cases e <;> exact hx
    have hp := dstep_promote { s with mouseXY := m } e h1 h2 h3 hx1
    have hrest := drun_dragging post (dstep { s with mouseXY := m } e)
      hp.1 hp.2.1
    have happ : drun s (pre ++ e :: post)
        = drun (dstep (drun s pre) e) post := by
      simp [drun, List.foldl_append]
    rw [happ, hm]
    exact ⟨hrest.1, by rw [hrest.2, hp.2.2]⟩

/-- Witness for `clickVsDrag_thresholds`: from the concrete pointer-down at
(105,102), two sub-threshold moves leave the drag idle with no start/end
fired, and the over-threshold move to (150,160) promotes it, firing
`drag:start` once. -/
theorem clickVsDrag_thresholds_witness :
    ((drun (handleMouseDown dInit (100, 100) (105, 102))
        [DEv.move (106, 103), DEv.move (104, 101)]).dragging = false ∧
      (drun (handleMouseDown dInit (100, 100) (105, 102))
          [DEv.move (106, 103), DEv.move (104, 101)]).startFires = 0 ∧
      (endDrag (drun (handleMouseDown dInit (100, 100) (105, 102))
          [DEv.move (106, 103), DEv.move (104, 101)])).endFires = 0) ∧
      ((drun (handleMouseDown dInit (100, 100) (105, 102))
          ([DEv.move (106, 103)] ++ DEv.move (150, 160) ::
            [DEv.move (151, 161)])).dragging = true ∧
        (drun (handleMouseDown dInit (100, 100) (105, 102))
            ([DEv.move (106, 103)] ++ DEv.move (150, 160) ::
              [DEv.move (151, 161)])).startFires = 0 + 1) :=
  ⟨clickVsDrag_thresholds.1 (handleMouseDown dInit (100, 100) (105, 102))
      [DEv.move (106, 103), DEv.move (104, 101)] rfl rfl (by decide),
    clickVsDrag_thresholds.2 (handleMouseDown dInit (100, 100) (105, 102))
      [DEv.move (106, 103)] [DEv.move (151, 161)] (DEv.move (150, 160))
      rfl rfl rfl (by decide) (by decide)⟩

/-- A constrained drag snapping to the tick-position array `[100]` inside
the region `{top 10, right 90, bottom 90, left 10}` with a 10×10 node. -/
def s5 : CDrag :=
  { cInit with
    startXY := (50, 50)
    constrain2node := some { top := 10, right := 90, bottom := 90, left := 10 }
    nodeW := 10, nodeH := 10
    tickXArray := some [100] }

/-- Counterexample to claim C5 as stated: with region bounds
`[10, 80]` (after shrinking by the node width) and the tick-position array
`[100]`, the constrained `_align` of the in-bounds position (50,50) snaps
the x-coordinate to 100 — strictly beyond the region bound 80.  The
tick-snapped position does fall outside the already-computed region
bounds. -/
theorem tickArray_outside_bounds :
    getRegion s5 true
        = some { top := 10, right := 80, bottom := 80, left := 10 } ∧
      alignC s5 (50, 50) = (100, 50) ∧
      (Region.right { top := 10, right := 80, bottom := 80, left := 10 })
        < (alignC s5 (50, 50)).1 := by decide

/-- Claim C5 amended: in the constrained `_align`, region clamping is
applied before tick-snapping; and the arithmetic `_calcTicks` keeps an
already-clamped position inside the region bounds provided both bounds are
truthy (nonzero) and the region spans at least one tick interval — but the
tick-position-array variant `_calcTickArray` can return a tick outside the
region bounds (see `tickArray_outside_bounds`), as can `_calcTicks` on a
region narrower than one tick interval or with a zero (falsy) bound. -/
theorem calcTicks_amended :
    (∀ N M J l k : Int, l ≠ 0 → k ≠ 0 → 0 < J → l ≤ N → N ≤ k →
        J ≤ k - l →
        l ≤ calcTicks N M J (some l) (some k) ∧
          calcTicks N M J (some l) (some k) ≤ k) ∧
      (∀ (s : CDrag) (S : Int × Int) (J : Region), s.stickX = false →
          s.stickY = false → getRegion s true = some J →
          alignC s S
            = checkTicks s (checkRegion s (alignBase s S)) (some J)) := by
  constructor
  · intro N M J l k hl hk hJ h1 h2 h3
    have hJQ : (0 : ℚ) < (J : ℚ) := by exact_mod_cast hJ
    have hJne : (J : ℚ) ≠ 0 := ne_of_gt hJQ
    have hprod : (J : ℚ) * (((N : ℚ) - (M : ℚ)) / (J : ℚ))
        = (N : ℚ) - (M : ℚ) := by
      field_simp
    have hfl : (⌊((N : ℚ) - (M : ℚ)) / (J : ℚ)⌋ : ℚ)
        ≤ ((N : ℚ) - (M : ℚ)) / (J : ℚ) := Int.floor_le _
    have hfl1 : ((N : ℚ) - (M : ℚ)) / (J : ℚ)
        < (⌊((N : ℚ) - (M : ℚ)) / (J : ℚ)⌋ : ℚ) + 1 :=
      Int.lt_floor_add_one _
    have key1 : M + J * ⌊((N : ℚ) - (M : ℚ)) / (J : ℚ)⌋ ≤ N := by
      have hq : (J : ℚ) * (⌊((N : ℚ) - (M : ℚ)) / (J : ℚ)⌋ : ℚ)
          ≤ (N : ℚ) - (M : ℚ) := by
        calc (J : ℚ) * (⌊((N : ℚ) - (M : ℚ)) / (J : ℚ)⌋ : ℚ)
            ≤ (J : ℚ) * (((N : ℚ) - (M : ℚ)) / (J : ℚ)) :=
              mul_le_mul_of_nonneg_left hfl (le_of_lt hJQ)
          _ = (N : ℚ) - (M : ℚ) := hprod
      have : (M : ℚ) + (J : ℚ) * (⌊((N : ℚ) - (M : ℚ)) / (J : ℚ)⌋ : ℚ)
          ≤ (N : ℚ) := by linarith
      exact_mod_cast this
    have key2 : N ≤ M + J * ⌊((N : ℚ) - (M : ℚ)) / (J : ℚ)⌋ + J := by
      have hq : (N : ℚ) - (M : ℚ)
          < (J : ℚ) * ((⌊((N : ℚ) - (M : ℚ)) / (J : ℚ)⌋ : ℚ) + 1) := by
        calc (N : ℚ) - (M : ℚ)
            = (J : ℚ) * (((N : ℚ) - (M : ℚ)) / (J : ℚ)) := hprod.symm
          _ < (J : ℚ) * ((⌊((N : ℚ) - (M : ℚ)) / (J : ℚ)⌋ : ℚ) + 1) := by
              exact mul_lt_mul_of_pos_left hfl1 hJQ
      have : (N : ℚ) < (M : ℚ)
          + (J : ℚ) * (⌊((N : ℚ) - (M : ℚ)) / (J : ℚ)⌋ : ℚ) + (J : ℚ) := by
        nlinarith
      have hz : N < M + J * ⌊((N : ℚ) - (M : ℚ)) / (J : ℚ)⌋ + J := by
        exact_mod_cast this
      omega
    unfold calcTicks
    simp only [ne_eq]
    split_ifs with hout hin htr hlow hhigh hhigh2
    · -- snapped below l, bumped value above k: impossible
      exfalso
      have he : M + J * (⌊((N : ℚ) - (M : ℚ)) / (J : ℚ)⌋ + 1)
          = M + J * ⌊((N : ℚ) - (M : ℚ)) / (J : ℚ)⌋ + J := by ring
      simp only [Option.getD] at hlow hhigh
      rw [he] at hhigh
      omega
    · -- snapped below l, bumped up one tick
      have he : M + J * (⌊((N : ℚ) - (M : ℚ)) / (J : ℚ)⌋ + 1)
          = M + J * ⌊((N : ℚ) - (M : ℚ)) / (J : ℚ)⌋ + J := by ring
      simp only [Option.getD] at hlow ⊢
      rw [he]
      omega
    · -- snapped in range but above k: impossible
      exfalso
      simp only [Option.getD] at hlow hhigh2
      omega
    · -- snapped in range
      simp only [Option.getD] at hlow ⊢
      omega
    · -- truthiness of the bounds cannot fail
      exfalso
      simp [otruthy, hl, hk] at htr
    · -- the floor/ceil sandwich always holds
      exact absurd ⟨Int.floor_le _, Int.le_ceil _⟩ hin
    · -- no snapping performed (position equals the grid anchor)
      omega
  · intro s S J hsx hsy hJ
    simp [alignC, hsx, hsy, hJ]

/-- Witness for `calcTicks_amended`: snapping 15 on a 10-pixel grid inside
`[1, 95]` stays inside the bounds, and the ordering equation holds at the
concrete state `s5`. -/
theorem calcTicks_amended_witness :
    (1 ≤ calcTicks 15 0 10 (some 1) (some 95) ∧
        calcTicks 15 0 10 (some 1) (some 95) ≤ 95) ∧
      alignC s5 (50, 50)
        = checkTicks s5 (checkRegion s5 (alignBase s5 (50, 50)))
            (some { top := 10, right := 80, bottom := 80, left := 10 }) :=
  ⟨calcTicks_amended.1 15 0 10 1 95 (by decide) (by decide) (by decide)
      (by decide) (by decide) (by decide),
    calcTicks_amended.2 s5 (50, 50)
      { top := 10, right := 80, bottom := 80, left := 10 }
      rfl rfl (by decide)⟩
